import Mathlib

/-!
# Versionador: the version-management API of `versions.c`

A shallow embedding of `src/versions.c` and theorems about it.

* The file system is an explicit `World`: the working tree and the blob
  directory (`fs`), the record file `versions.db` (`db`), whether that file
  can be opened for appending (`db_appendable`), and whether a record written
  to it reaches the file (`db_write_lands`).
* What `versions.c` takes from headers that are not part of the sources
  (`versions.h`, `sha256.h`) is collected in `Env`: the numeric values of the
  `return_code` enumerators, `VERSIONS_DIR`, and the hash function.
* A `char *` argument whose *address* the code inspects (`get`) is a `CharPtr`:
  an address together with the string found there.
-/

namespace Versionador

/-! ## Data model -/

/-- One `file_version` record: the three character buffers, each read as the
string up to its terminating NUL. -/
structure file_version where
  filename : String
  hash : String
  comment : String
  deriving DecidableEq, Repr

/-- What `stat` can find at a path: a regular file with its bytes, or something
that is not a regular file (a directory, a device, ...). -/
inductive Node where
  | regular (content : List Nat)
  | other
  deriving DecidableEq, Repr

/-- The part of the file system the code touches. -/
structure World where
  /-- path to node; `none` when `stat` fails on the path -/
  fs : String → Option Node
  /-- records of `versions.db`; `none` when the file does not exist, so that
  `fopen(VERSIONS_DB_PATH, "r")` fails -/
  db : Option (List file_version)
  /-- whether `fopen(VERSIONS_DB_PATH, "ab")` succeeds -/
  db_appendable : Bool
  /-- whether a record written through the stream reaches the file, that is,
  `fwrite` and `fclose` succeed; `false` when the disk is full, a quota is
  hit or the device reports an error -/
  db_write_lands : Bool

/-- Records currently held by the version log (none when the file is absent). -/
def World.records (w : World) : List file_version :=
  w.db.getD []

/-- Everything `versions.c` takes from outside the sources: the headers
`versions.h` and `sha256.h`, and how the platform treats a write into a string
literal. -/
structure Env where
  /-- enumerators of `return_code` (declared in `versions.h`) -/
  VERSION_ERROR : Int
  VERSION_CREATED : Int
  VERSION_ADDED : Int
  VERSION_ALREADY_EXISTS : Int
  /-- the macro `VERSIONS_DIR` -/
  VERSIONS_DIR : String
  /-- hex digest of a file content, `sha256_hash_file_hex` of `sha256.h` -/
  sha256_hash_file_hex : List Nat → String
  /-- `create_version` calls `strcat` with a string literal as destination.
  Writing into a literal is undefined: `true` when the platform lets the
  write go through, `false` when it faults. -/
  literal_writable : Bool

/-- The enumerators numbered in declaration order, with a toy digest; used
where a concrete environment is needed. -/
def Env.sample : Env where
  VERSION_ERROR := 0
  VERSION_CREATED := 1
  VERSION_ADDED := 2
  VERSION_ALREADY_EXISTS := 3
  VERSIONS_DIR := ".versions"
  sha256_hash_file_hex := fun bytes => toString bytes.sum
  literal_writable := true

/-- How a call of a non-void function ends. -/
inductive Ret where
  /-- `return n;` -/
  | val (n : Int)
  /-- control reached the closing brace without a `return` -/
  | fell_off
  /-- the call faulted (write into a string literal) -/
  | fault
  deriving DecidableEq, Repr

/-- A `char *` argument: the address held and the string stored there. -/
structure CharPtr where
  addr : Nat
  str : String
  deriving DecidableEq, Repr

/-! ## Operations -/

/-- The test `stat(filename, &s) < 0 || !S_ISREG(s.st_mode)` negated: the path
exists and is a regular file. -/
def is_regular (w : World) (path : String) : Bool :=
  match w.fs path with
  | some (Node.regular _) => true
  | _ => false

/-- `get_file_hash`: `none` (NULL) when the path is not a regular file, else
the digest of its content. -/
def get_file_hash (E : Env) (w : World) (filename : String) : Option String :=
  match w.fs filename with
  | some (Node.regular content) => some (E.sha256_hash_file_hex content)
  | _ => none

/-- `copy`: the body is empty, so nothing is copied and no value is returned. -/
def copy (w : World) (_source _destination : String) : Ret × World :=
  (Ret.fell_off, w)

/-- `store_file`: builds `VERSIONS_DIR/hash` and calls `copy`. -/
def store_file (E : Env) (w : World) (filename hash : String) : Ret × World :=
  copy w filename (E.VERSIONS_DIR ++ "/" ++ hash)

/-- `retrieve_file`: builds `VERSIONS_DIR/hash` and calls `copy`. -/
def retrieve_file (E : Env) (w : World) (hash filename : String) : Ret × World :=
  copy w (E.VERSIONS_DIR ++ "/" ++ hash) filename

/-- `create_version`: `result` is the record behind the out-pointer; it is
returned as the call leaves it. -/
def create_version (E : Env) (w : World) (filename comment : String)
    (result : file_version) : Ret × file_version :=
  if !is_regular w filename then
    (Ret.val E.VERSION_ERROR, result)
  else
    match get_file_hash E w filename with
    | none => (Ret.fault, result)
    | some hash =>
      -- strcpy(new, strcat(VERSIONS_DIR "/", hash)): the destination is a literal
      if !E.literal_writable then (Ret.fault, result)
      else
        (Ret.val E.VERSION_CREATED,
          { filename := filename, comment := comment, hash := hash })

/-- The read loop of `version_exists` over the records still to be read. -/
def version_exists_scan (E : Env) (filename hash : String) : List file_version → Int
  | [] => 1
  | v :: rest =>
    if v.filename = filename ∧ v.hash = hash then E.VERSION_ALREADY_EXISTS
    else version_exists_scan E filename hash rest

/-- `version_exists`: only reads the log. -/
def version_exists (E : Env) (w : World) (filename hash : String) : Int :=
  match w.db with
  | none => -1
  | some records => version_exists_scan E filename hash records

/-- `add_new_version`: opens the log in mode "ab" (which creates the file when
it is absent) and writes one record. The results of `fwrite` and `fclose` are
not looked at: `VERSION_CREATED` is returned whether or not the record reached
the file. A write that does not land adds no complete record. -/
def add_new_version (E : Env) (w : World) (v : file_version) : Int × World :=
  if !w.db_appendable then
    (E.VERSION_ERROR, w)
  else
    (E.VERSION_CREATED,
      { w with db := some (w.records ++ (if w.db_write_lands then [v] else [])) })

/-- `add`: after `create_version`, the only statement is
`if (version_exists(filename, v.hash)) return VERSION_ERROR;`
(steps 3 and 4 are comments), then the closing brace. -/
def add (E : Env) (w : World) (filename comment : String) : Ret × World :=
  -- file_version v; (not initialised; create_version fills it before any read)
  match create_version E w filename comment ⟨"", "", ""⟩ with
  | (Ret.val code, v) =>
    if code = E.VERSION_ERROR then (Ret.val E.VERSION_ERROR, w)
    else if version_exists E w filename v.hash ≠ 0 then (Ret.val E.VERSION_ERROR, w)
    else (Ret.fell_off, w)
  | (_, _) => (Ret.fault, w)

/-- `list`: the body is empty; nothing is shown. The first component is the
sequence of records displayed. -/
def list (w : World) (_filename : Option String) : List file_version × World :=
  ([], w)

/-- The read loop of `get`. `r_addr` is the address of the buffer `r.filename`
of the local `r`; `cont` is the running counter. The test `r.filename == filename`
compares the two addresses. -/
def get_scan (r_addr : Nat) (filename : CharPtr) (version : Int) (w : World) :
    List file_version → Int → Int × World
  | [], _ => (0, w)
  | r :: rest, cont =>
    if r_addr = filename.addr then
      if cont = version then
        ((1 : Int), (copy w r.hash r.filename).2)
      else get_scan r_addr filename version w rest (cont + 1)
    else get_scan r_addr filename version w rest cont

/-- `get`: `r_addr` is where the local `r.filename` lives during the call. -/
def get (r_addr : Nat) (w : World) (filename : CharPtr) (version : Int) : Int × World :=
  match w.db with
  | none => (-1, w)
  | some records => get_scan r_addr filename version w records 1

/-! ## Sample inputs -/

/-- A working tree holding the single regular file `a.txt` with bytes "v1". -/
def tree_a : String → Option Node :=
  fun p => if p = "a.txt" then some (Node.regular [118, 49]) else none

/-- A repository without any version: the log is present and empty
(`db_present = true`) or not yet created. -/
def empty_repo (db_present : Bool) : World where
  fs := tree_a
  db := if db_present then some [] else none
  db_appendable := true
  db_write_lands := true

/-- A repository as one stored version of `a.txt` would leave it: the log
holds the record, the blob directory holds bytes "v1" under the digest, and
the working copy has since been edited to "v2". -/
def stored_repo (E : Env) : World where
  fs := fun p =>
    if p = "a.txt" then some (Node.regular [118, 50])
    else if p = E.VERSIONS_DIR ++ "/" ++ E.sha256_hash_file_hex [118, 49] then
      some (Node.regular [118, 49])
    else none
  db := some [⟨"a.txt", E.sha256_hash_file_hex [118, 49], "init"⟩]
  db_appendable := true
  db_write_lands := true

/-- A repository whose log already records the present content of `a.txt`. -/
def recorded_repo (E : Env) : World where
  fs := tree_a
  db := some [⟨"a.txt", E.sha256_hash_file_hex [118, 49], "c1"⟩]
  db_appendable := true
  db_write_lands := true

/-- A repository with an empty log that may or may not accept appends. -/
def append_repo (appendable : Bool) : World where
  fs := tree_a
  db := some []
  db_appendable := appendable
  db_write_lands := true

/-- A log with two versions of `a.txt` around one of `b.txt`. -/
def three_records : List file_version :=
  [⟨"a.txt", "h1", "init"⟩, ⟨"b.txt", "h2", "other"⟩, ⟨"a.txt", "h3", "fix"⟩]

/-- A repository holding `three_records` whose log can be opened for appending
while no further record can be written (the disk is full). -/
def full_disk_repo : World where
  fs := tree_a
  db := some three_records
  db_appendable := true
  db_write_lands := false

/-- A repository holding `three_records`. -/
def listed_repo : World where
  fs := tree_a
  db := some three_records
  db_appendable := true
  db_write_lands := true

/-! ## Auxiliary lemmas -/

theorem is_regular_of_fs {w : World} {path : String} {content : List Nat}
    (h : w.fs path = some (Node.regular content)) : is_regular w path = true := by
  simp [is_regular, h]

theorem create_version_of_regular (E : Env) (w : World) (filename comment : String)
    (content : List Nat) (r0 : file_version)
    (h : w.fs filename = some (Node.regular content)) :
    create_version E w filename comment r0 =
      if E.literal_writable then
        (Ret.val E.VERSION_CREATED,
          { filename := filename, comment := comment,
            hash := E.sha256_hash_file_hex content })
      else (Ret.fault, r0) := by
  simp only [create_version, is_regular_of_fs h, get_file_hash, h]
  cases E.literal_writable <;> simp

theorem create_version_of_not_regular (E : Env) (w : World) (filename comment : String)
    (r0 : file_version) (h : is_regular w filename = false) :
    create_version E w filename comment r0 = (Ret.val E.VERSION_ERROR, r0) := by
  simp [create_version, h]

theorem add_world (E : Env) (w : World) (filename comment : String) :
    (add E w filename comment).2 = w := by
  unfold add
  split
  · split_ifs <;> rfl
  · rfl

theorem version_exists_scan_no_match (E : Env) (filename hash : String) :
    ∀ records : List file_version,
      (∀ v ∈ records, ¬ (v.filename = filename ∧ v.hash = hash)) →
      version_exists_scan E filename hash records = 1
  | [], _ => rfl
  | v :: rest, h => by
    have hv : ¬ (v.filename = filename ∧ v.hash = hash) := h v (List.mem_cons_self v rest)
    have hrest : ∀ u ∈ rest, ¬ (u.filename = filename ∧ u.hash = hash) :=
      fun u hu => h u (List.mem_cons_of_mem v hu)
    simp only [version_exists_scan, if_neg hv]
    exact version_exists_scan_no_match E filename hash rest hrest

theorem version_exists_no_match_ne_zero (E : Env) (w : World) (filename hash : String)
    (h : ∀ v ∈ w.records, ¬ (v.filename = filename ∧ v.hash = hash)) :
    version_exists E w filename hash ≠ 0 := by
  unfold version_exists
  cases hdb : w.db with
  | none => simp
  | some records =>
    have h2 : ∀ v ∈ records, ¬ (v.filename = filename ∧ v.hash = hash) := by
      simpa [World.records, hdb] using h
    simp [version_exists_scan_no_match E filename hash records h2]

theorem get_scan_of_addr_ne (r_addr : Nat) (filename : CharPtr) (version : Int) (w : World)
    (h : r_addr ≠ filename.addr) :
    ∀ (records : List file_version) (cont : Int),
      get_scan r_addr filename version w records cont = (0, w)
  | [], _ => rfl
  | _ :: rest, cont => by
    simp only [get_scan, if_neg h]
    exact get_scan_of_addr_ne r_addr filename version w h rest cont

theorem get_scan_of_lt (r_addr : Nat) (filename : CharPtr) (version : Int) (w : World) :
    ∀ (records : List file_version) (cont : Int), version < cont →
      get_scan r_addr filename version w records cont = (0, w)
  | [], _, _ => rfl
  | _ :: rest, cont, h => by
    have hne : cont ≠ version := by omega
    simp only [get_scan, if_neg hne]
    split_ifs
    · exact get_scan_of_lt r_addr filename version w rest (cont + 1) (by omega)
    · exact get_scan_of_lt r_addr filename version w rest cont h

theorem get_scan_of_beyond (r_addr : Nat) (filename : CharPtr) (version : Int) (w : World) :
    ∀ (records : List file_version) (cont : Int), cont + records.length ≤ version →
      get_scan r_addr filename version w records cont = (0, w)
  | [], _, _ => rfl
  | _ :: rest, cont, h => by
    simp only [List.length_cons, Nat.cast_add, Nat.cast_one] at h
    have hne : cont ≠ version := by omega
    simp only [get_scan, if_neg hne]
    split_ifs
    · exact get_scan_of_beyond r_addr filename version w rest (cont + 1) (by omega)
    · exact get_scan_of_beyond r_addr filename version w rest cont (by omega)

theorem version_exists_scan_match (E : Env) (filename hash : String) :
    ∀ records : List file_version,
      (∃ v ∈ records, v.filename = filename ∧ v.hash = hash) →
      version_exists_scan E filename hash records = E.VERSION_ALREADY_EXISTS
  | [], h => by
    obtain ⟨v, hv, _⟩ := h
    cases hv
  | u :: rest, h => by
    by_cases hu : u.filename = filename ∧ u.hash = hash
    · simp only [version_exists_scan, if_pos hu]
    · simp only [version_exists_scan, if_neg hu]
      apply version_exists_scan_match E filename hash rest
      obtain ⟨v, hv, hm⟩ := h
      rcases List.mem_cons.mp hv with rfl | hin
      · exact absurd hm hu
      · exact ⟨v, hin, hm⟩

theorem add_of_new_content (E : Env) (w : World) (filename comment : String)
    (content : List Nat) (hreg : w.fs filename = some (Node.regular content))
    (hnew : ∀ v ∈ w.records,
      ¬ (v.filename = filename ∧ v.hash = E.sha256_hash_file_hex content)) :
    add E w filename comment =
      (if E.literal_writable then Ret.val E.VERSION_ERROR else Ret.fault, w) := by
  have hve := version_exists_no_match_ne_zero E w filename _ hnew
  unfold add
  rw [create_version_of_regular E w filename comment content _ hreg]
  cases E.literal_writable
  · simp
  · simp only [if_true]
    split_ifs <;> rfl

theorem tree_a_file : tree_a "a.txt" = some (Node.regular [118, 49]) := by
  simp [tree_a]

/-! ## Claims -/

/-- C8: when the path does not exist or is not a regular file, `create_version`
returns `VERSION_ERROR` leaving the record untouched (whatever the hash
function), and `add` returns `VERSION_ERROR` with the world, hence the version
log and the blob directory, exactly as before. -/
theorem add_invalid_input (E : Env) (w : World) (path comment : String) (r0 : file_version)
    (h : w.fs path = none ∨ w.fs path = some Node.other) :
    create_version E w path comment r0 = (Ret.val E.VERSION_ERROR, r0) ∧
    add E w path comment = (Ret.val E.VERSION_ERROR, w) := by
  have hreg : is_regular w path = false := by
    rcases h with h | h <;> simp [is_regular, h]
  refine ⟨create_version_of_not_regular E w path comment r0 hreg, ?_⟩
  unfold add
  rw [create_version_of_not_regular E w path comment _ hreg]
  simp

theorem add_invalid_input_witness :
    ((empty_repo true).fs "missing.txt" = none ∨
      (empty_repo true).fs "missing.txt" = some Node.other) ∧
    create_version Env.sample (empty_repo true) "missing.txt" "note" ⟨"x", "y", "z"⟩ =
      (Ret.val Env.sample.VERSION_ERROR, ⟨"x", "y", "z"⟩) ∧
    add Env.sample (empty_repo true) "missing.txt" "note" =
      (Ret.val Env.sample.VERSION_ERROR, empty_repo true) :=
  ⟨Or.inl (by simp [empty_repo, tree_a]),
    add_invalid_input Env.sample (empty_repo true) "missing.txt" "note" ⟨"x", "y", "z"⟩
      (Or.inl (by simp [empty_repo, tree_a]))⟩

/-- C10, as stated, fails: the log can be opened for appending but the record
does not reach the file (full disk). `add_new_version` still returns
`VERSION_CREATED`, and the log afterwards is the log before, not the log
before followed by the new record. -/
theorem add_new_version_write_lost :
    full_disk_repo.db_appendable = true ∧
    (add_new_version Env.sample full_disk_repo ⟨"a.txt", "h4", "more"⟩).1 =
      Env.sample.VERSION_CREATED ∧
    (add_new_version Env.sample full_disk_repo ⟨"a.txt", "h4", "more"⟩).2.records =
      full_disk_repo.records ∧
    (add_new_version Env.sample full_disk_repo ⟨"a.txt", "h4", "more"⟩).2.records ≠
      full_disk_repo.records ++ [⟨"a.txt", "h4", "more"⟩] := by
  refine ⟨rfl, rfl, ?_, ?_⟩
  · simp [add_new_version, full_disk_repo, World.records]
  · simp [add_new_version, full_disk_repo, World.records]

/-- C10 amended: `add_new_version` is append-only. When the log can be opened
for appending and the record written reaches the file, it returns
`VERSION_CREATED` (the value 1 when the enumerator is 1), the log afterwards is
the log before followed by the new record, and the rest of the world is
untouched. When the log cannot be opened it returns `VERSION_ERROR` (0 when
the enumerator is 0) and the world is unchanged. In every case each earlier
record keeps its position and content. -/
theorem add_new_version_append_only (E : Env) (w : World) (v : file_version) :
    (w.db_appendable = true → w.db_write_lands = true →
      (add_new_version E w v).1 = E.VERSION_CREATED ∧
      (E.VERSION_CREATED = 1 → (add_new_version E w v).1 = 1) ∧
      (add_new_version E w v).2.db = some (w.records ++ [v]) ∧
      (add_new_version E w v).2.records = w.records ++ [v] ∧
      (add_new_version E w v).2.records[w.records.length]? = some v ∧
      (add_new_version E w v).2.fs = w.fs ∧
      (add_new_version E w v).2.db_appendable = w.db_appendable ∧
      (add_new_version E w v).2.db_write_lands = w.db_write_lands) ∧
    (w.db_appendable = false →
      add_new_version E w v = (E.VERSION_ERROR, w) ∧
      (E.VERSION_ERROR = 0 → (add_new_version E w v).1 = 0)) ∧
    (∀ i, i < w.records.length →
      (add_new_version E w v).2.records[i]? = w.records[i]?) := by
  refine ⟨?_, ?_, ?_⟩
  · intro h hl
    have e : add_new_version E w v =
        (E.VERSION_CREATED, { w with db := some (w.records ++ [v]) }) := by
      simp [add_new_version, h, hl]
    rw [e]
    refine ⟨rfl, fun h1 => h1, rfl, rfl, ?_, rfl, rfl, rfl⟩
    simp [World.records]
  · intro h
    have e : add_new_version E w v = (E.VERSION_ERROR, w) := by
      simp [add_new_version, h]
    rw [e]
    exact ⟨rfl, fun h0 => h0⟩
  · intro i hi
    cases h : w.db_appendable
    · simp [add_new_version, h]
    · simp only [add_new_version, h, Bool.not_true, Bool.false_eq_true, if_false,
        World.records, Option.getD_some]
      exact List.getElem?_append_left hi

theorem add_new_version_append_only_witness :
    (add_new_version Env.sample listed_repo ⟨"a.txt", "h4", "more"⟩).1 = 1 ∧
    (add_new_version Env.sample listed_repo ⟨"a.txt", "h4", "more"⟩).2.records =
      three_records ++ [⟨"a.txt", "h4", "more"⟩] ∧
    add_new_version Env.sample (append_repo false) ⟨"a.txt", "h4", "more"⟩ =
      (0, append_repo false) ∧
    (add_new_version Env.sample full_disk_repo ⟨"a.txt", "h4", "more"⟩).2.records[2]? =
      full_disk_repo.records[2]? :=
  ⟨((add_new_version_append_only Env.sample listed_repo
      ⟨"a.txt", "h4", "more"⟩).1 rfl rfl).2.1 rfl,
    ((add_new_version_append_only Env.sample listed_repo
      ⟨"a.txt", "h4", "more"⟩).1 rfl rfl).2.2.2.1,
    ((add_new_version_append_only Env.sample (append_repo false)
      ⟨"a.txt", "h4", "more"⟩).2.1 rfl).1,
    (add_new_version_append_only Env.sample full_disk_repo
      ⟨"a.txt", "h4", "more"⟩).2.2 2 (by decide)⟩

/-- C9, as stated, fails: with an empty log, `get` with version 0 returns the
very value 0 that it returns for version 1, which is too large there; nothing
tells the two outcomes apart. -/
theorem get_zero_same_as_not_found :
    (get 4096 (append_repo true) ⟨8192, "a.txt"⟩ 0).1 = 0 ∧
    (get 4096 (append_repo true) ⟨8192, "a.txt"⟩ 1).1 = 0 ∧
    get 4096 (append_repo true) ⟨8192, "a.txt"⟩ 0 =
      get 4096 (append_repo true) ⟨8192, "a.txt"⟩ 1 := by
  refine ⟨rfl, rfl, rfl⟩

/-- C9 amended: `get` does not validate the version number. For a version
below 1 it returns what it returns for a version beyond the number of records
in the log: 0 when the log can be opened, -1 when it cannot; the world is
unchanged, so no file is restored. This holds whatever the addresses compared
inside the loop. -/
theorem get_nonpositive_version (r_addr : Nat) (w : World) (filename : CharPtr)
    (n m : Int) (hn : n < 1) (hm : (w.records.length : Int) < m) :
    get r_addr w filename n = get r_addr w filename m ∧
    get r_addr w filename n = (if w.db.isSome then 0 else -1, w) := by
  unfold get
  cases hdb : w.db with
  | none => exact ⟨rfl, rfl⟩
  | some records =>
    have hlen : (records.length : Int) < m := by
      simpa [World.records, hdb] using hm
    have e1 := get_scan_of_lt r_addr filename n w records 1 (by omega)
    have e2 := get_scan_of_beyond r_addr filename m w records 1 (by omega)
    simp only [e1, e2, Option.isSome_some, if_true, and_self]

theorem get_nonpositive_version_witness :
    ((-2 : Int) < 1) ∧ ((listed_repo.records.length : Int) < 7) ∧
    get 4096 listed_repo ⟨4096, "a.txt"⟩ (-2) = get 4096 listed_repo ⟨4096, "a.txt"⟩ 7 ∧
    get 4096 listed_repo ⟨4096, "a.txt"⟩ (-2) =
      (if listed_repo.db.isSome then 0 else -1, listed_repo) :=
  ⟨by decide, by decide,
    get_nonpositive_version 4096 listed_repo ⟨4096, "a.txt"⟩ (-2) 7 (by decide) (by decide)⟩

/-- C4 on the code: for a regular file whose (filename, hash) pair is not in
the log (empty and absent logs included), `add` does not return
`VERSION_ADDED`: it returns `VERSION_ERROR` (or faults in `create_version`),
and the world is unchanged, so no blob is stored and no record appended. -/
theorem add_new_content_not_added (E : Env) (w : World) (filename comment : String)
    (content : List Nat) (hreg : w.fs filename = some (Node.regular content))
    (hnew : ∀ v ∈ w.records,
      ¬ (v.filename = filename ∧ v.hash = E.sha256_hash_file_hex content)) :
    add E w filename comment =
      (if E.literal_writable then Ret.val E.VERSION_ERROR else Ret.fault, w) ∧
    (add E w filename comment).2.records = w.records ∧
    (add E w filename comment).2.fs (E.VERSIONS_DIR ++ "/" ++ E.sha256_hash_file_hex content) =
      w.fs (E.VERSIONS_DIR ++ "/" ++ E.sha256_hash_file_hex content) := by
  rw [add_of_new_content E w filename comment content hreg hnew]
  exact ⟨rfl, rfl, rfl⟩

theorem add_new_content_not_added_witness :
    (empty_repo true).fs "a.txt" = some (Node.regular [118, 49]) ∧
    (∀ v ∈ (empty_repo true).records,
      ¬ (v.filename = "a.txt" ∧ v.hash = Env.sample.sha256_hash_file_hex [118, 49])) ∧
    add Env.sample (empty_repo true) "a.txt" "init" =
      (if Env.sample.literal_writable then Ret.val Env.sample.VERSION_ERROR else Ret.fault,
        empty_repo true) ∧
    (add Env.sample (empty_repo true) "a.txt" "init").2.records = (empty_repo true).records ∧
    (add Env.sample (empty_repo true) "a.txt" "init").2.fs
        (Env.sample.VERSIONS_DIR ++ "/" ++ Env.sample.sha256_hash_file_hex [118, 49]) =
      (empty_repo true).fs
        (Env.sample.VERSIONS_DIR ++ "/" ++ Env.sample.sha256_hash_file_hex [118, 49]) :=
  ⟨tree_a_file, by simp [empty_repo, World.records],
    add_new_content_not_added Env.sample (empty_repo true) "a.txt" "init" [118, 49]
      tree_a_file (by simp [empty_repo, World.records])⟩

/-- C1 on the code: in a repository without versions, `add` of the regular
file `a.txt` is not successful (it returns `VERSION_ERROR`, or faults, and
stores nothing); and in a repository that does hold version 1 of `a.txt`,
`get` of version 1 returns 0 and leaves the edited working copy as it was. -/
theorem add_then_get_round_trip_fails (E : Env) (db_present : Bool) (r_addr addr : Nat)
    (h : r_addr ≠ addr) :
    add E (empty_repo db_present) "a.txt" "init" =
      (if E.literal_writable then Ret.val E.VERSION_ERROR else Ret.fault,
        empty_repo db_present) ∧
    get r_addr (stored_repo E) ⟨addr, "a.txt"⟩ 1 = (0, stored_repo E) ∧
    (get r_addr (stored_repo E) ⟨addr, "a.txt"⟩ 1).2.fs "a.txt" =
      some (Node.regular [118, 50]) := by
  have hget : get r_addr (stored_repo E) ⟨addr, "a.txt"⟩ 1 = (0, stored_repo E) := by
    simp only [get, stored_repo]
    exact get_scan_of_addr_ne r_addr ⟨addr, "a.txt"⟩ 1 _ h _ 1
  refine ⟨?_, hget, ?_⟩
  · apply add_of_new_content E (empty_repo db_present) "a.txt" "init" [118, 49] tree_a_file
    cases db_present <;> simp [empty_repo, World.records]
  · rw [hget]
    simp [stored_repo]

theorem add_then_get_round_trip_fails_witness :
    (4096 : Nat) ≠ 8192 ∧
    add Env.sample (empty_repo true) "a.txt" "init" =
      (if Env.sample.literal_writable then Ret.val Env.sample.VERSION_ERROR else Ret.fault,
        empty_repo true) ∧
    get 4096 (stored_repo Env.sample) ⟨8192, "a.txt"⟩ 1 = (0, stored_repo Env.sample) ∧
    (get 4096 (stored_repo Env.sample) ⟨8192, "a.txt"⟩ 1).2.fs "a.txt" =
      some (Node.regular [118, 50]) :=
  ⟨by decide, add_then_get_round_trip_fails Env.sample true 4096 8192 (by decide)⟩

/-- C2 on the code: when the log already holds the (filename, hash) pair of
the unchanged file, `add` does not return `VERSION_ALREADY_EXISTS`; where the
literal write goes through and `VERSION_ALREADY_EXISTS` is nonzero it returns
`VERSION_ERROR`. The world is unchanged. -/
theorem add_unchanged_content_reports_error (E : Env)
    (hne : E.VERSION_ALREADY_EXISTS ≠ E.VERSION_ERROR) :
    (add E (recorded_repo E) "a.txt" "c2").1 ≠ Ret.val E.VERSION_ALREADY_EXISTS ∧
    (E.literal_writable = true → E.VERSION_ALREADY_EXISTS ≠ 0 →
      (add E (recorded_repo E) "a.txt" "c2").1 = Ret.val E.VERSION_ERROR) ∧
    (add E (recorded_repo E) "a.txt" "c2").2 = recorded_repo E := by
  have hve : version_exists E (recorded_repo E) "a.txt" (E.sha256_hash_file_hex [118, 49]) =
      E.VERSION_ALREADY_EXISTS := by
    simp [version_exists, recorded_repo, version_exists_scan]
  have hadd : add E (recorded_repo E) "a.txt" "c2" =
      (if E.literal_writable then
        (if E.VERSION_CREATED = E.VERSION_ERROR then Ret.val E.VERSION_ERROR
         else if E.VERSION_ALREADY_EXISTS ≠ 0 then Ret.val E.VERSION_ERROR
         else Ret.fell_off)
       else Ret.fault, recorded_repo E) := by
    unfold add
    rw [create_version_of_regular E (recorded_repo E) "a.txt" "c2" [118, 49] _ tree_a_file]
    cases E.literal_writable
    · simp
    · simp only [if_true, hve]
      split_ifs <;> rfl
  refine ⟨?_, ?_, add_world E _ _ _⟩
  · rw [hadd]
    have hne2 : E.VERSION_ERROR ≠ E.VERSION_ALREADY_EXISTS := fun e => hne e.symm
    cases E.literal_writable
    · simp
    · simp only [if_true]
      split_ifs <;> simp [hne2]
  · intro hl h0
    rw [hadd]
    simp [hl, h0]

theorem add_unchanged_content_reports_error_witness :
    Env.sample.VERSION_ALREADY_EXISTS ≠ Env.sample.VERSION_ERROR ∧
    (add Env.sample (recorded_repo Env.sample) "a.txt" "c2").1 ≠
      Ret.val Env.sample.VERSION_ALREADY_EXISTS ∧
    (add Env.sample (recorded_repo Env.sample) "a.txt" "c2").1 =
      Ret.val Env.sample.VERSION_ERROR ∧
    (add Env.sample (recorded_repo Env.sample) "a.txt" "c2").2 = recorded_repo Env.sample :=
  ⟨by decide,
    (add_unchanged_content_reports_error Env.sample (by decide)).1,
    (add_unchanged_content_reports_error Env.sample (by decide)).2.1 rfl (by decide),
    (add_unchanged_content_reports_error Env.sample (by decide)).2.2⟩

/-- C3 on the code: the loop of `get` compares the address of its own buffer
`r.filename` with the address passed in, never the strings. A caller cannot
hold the address of that buffer, so on every log that can be opened `get`
returns 0 for every version and restores nothing, also when the log holds
records whose filename equals the string asked for. -/
theorem get_never_selects (r_addr : Nat) (w : World) (filename : CharPtr) (version : Int)
    (records : List file_version) (hdb : w.db = some records)
    (haddr : r_addr ≠ filename.addr) :
    get r_addr w filename version = (0, w) := by
  simp only [get, hdb]
  exact get_scan_of_addr_ne r_addr filename version w haddr records 1

theorem get_never_selects_witness :
    listed_repo.db = some three_records ∧ (4096 : Nat) ≠ 8192 ∧
    (three_records.filter (fun v => v.filename = "a.txt")).length = 2 ∧
    get 4096 listed_repo ⟨8192, "a.txt"⟩ 1 = (0, listed_repo) :=
  ⟨rfl, by decide, by decide,
    get_never_selects 4096 listed_repo ⟨8192, "a.txt"⟩ 1 three_records rfl (by decide)⟩

/-- C5 on the code: on a log that can be opened, `version_exists` returns
`VERSION_ALREADY_EXISTS` when some record has the filename and the hash, and 1
when none has; 0 is not what it returns for a missing version. -/
theorem version_exists_values (E : Env) (w : World) (filename hash : String)
    (records : List file_version) (hdb : w.db = some records) :
    ((∃ v ∈ records, v.filename = filename ∧ v.hash = hash) →
      version_exists E w filename hash = E.VERSION_ALREADY_EXISTS) ∧
    ((∀ v ∈ records, ¬ (v.filename = filename ∧ v.hash = hash)) →
      version_exists E w filename hash = 1) := by
  simp only [version_exists, hdb]
  exact ⟨version_exists_scan_match E filename hash records,
    version_exists_scan_no_match E filename hash records⟩

theorem version_exists_values_witness :
    (append_repo true).db = some [] ∧
    version_exists Env.sample (append_repo true) "a.txt" "h1" = 1 :=
  ⟨rfl, (version_exists_values Env.sample (append_repo true) "a.txt" "h1" [] rfl).2
    (fun _ hv => by cases hv)⟩

/-- C6 on the code: `list` has an empty body. On a log with two records of
`a.txt` and one of `b.txt` it shows no record, with a filename and with NULL,
where the matching records are the first and the third. -/
theorem list_shows_nothing :
    (list listed_repo (some "a.txt")).1 = [] ∧
    (list listed_repo none).1 = [] ∧
    listed_repo.records.filter (fun v => v.filename = "a.txt") =
      [⟨"a.txt", "h1", "init"⟩, ⟨"a.txt", "h3", "fix"⟩] ∧
    listed_repo.records.length = 3 := by
  refine ⟨rfl, rfl, by decide, rfl⟩

end Versionador
